import Mathlib

/-!
# Verification of the ai-video-clipper batch pipeline

Shallow embedding of the core algorithmic parts of the repository:
the two trim-strategy calculators (`DefaultClipCalculator.CalculateClipTimes`
in `main.go` and `ProcessingConfig.CalculateClipTimes` in
`internal/domain/entities/processing_config.go`), the quality-preset
resolver and encoder-argument builder
(`internal/infrastructure/ffmpeg/video_repository_impl.go`), the
two-stage transcode pipeline's temp-file lifecycle, the batch scheduler
(`processVideosInBatches` / `processBatch` in `main.go`), the concurrency
groups of `errgroup.go`, and the temp-path generator.

Modelling conventions:
* Go `float64` arithmetic on durations and rate-control factors is
  idealized as exact rational arithmetic (`ℚ`); Go `int` is `ℤ`.
  `int(float64(b)*r)` for a rational literal `r = p/q` is modelled as
  `Int.tdiv (p*b) q` (Go conversion truncates toward zero).
* Go strings are Lean `String`s; where character-level reasoning is
  needed (path manipulation) they are `List Char`.
* Stateful code (the pipeline's filesystem side effects, the goroutine
  groups) is modelled as explicit traces / transition relations.
-/

namespace AVC

/-- Error outcomes of the trim calculators: `UnsupportedStrategy` is the
`不支持的剪辑策略` error (both calculators), `invalidWindow` is the
`计算的剪辑时间无效` error returned by
`ProcessingConfig.CalculateClipTimes` when `startTime >= endTime`. -/
inductive ClipError where
  | unsupportedStrategy (strategy : String)
  | invalidWindow
  deriving DecidableEq, Repr

/-- Embedding of `DefaultClipCalculator.CalculateClipTimes` from `src/main.go`
(lines 182–228). The switch on `config.ClipStrategy` is translated as an
if-chain in source case order (`start_segments`, `end_segments`,
`last_segments`, `middle_segments`); each in-place clamp
(`if endTime > totalDuration { endTime = totalDuration }` etc.) becomes a
rebinding `let`. Returns the window with no degeneracy check. -/
def mainCalculateClipTimes (totalDuration : ℚ) (clipStrategy : String)
    (clipDuration : ℤ) : Except ClipError (ℚ × ℚ) :=
  if clipStrategy = "start_segments" then
    let startTime : ℚ := 5
    let endTime : ℚ := startTime + (clipDuration : ℚ)
    let endTime : ℚ := if endTime > totalDuration then totalDuration else endTime
    Except.ok (startTime, endTime)
  else if clipStrategy = "end_segments" then
    let endTime : ℚ := totalDuration - 5
    let startTime : ℚ := endTime - (clipDuration : ℚ)
    let startTime : ℚ := if startTime < 0 then 0 else startTime
    Except.ok (startTime, endTime)
  else if clipStrategy = "last_segments" then
    let endTime : ℚ := totalDuration - 5
    let startTime : ℚ := endTime - (clipDuration : ℚ)
    let startTime : ℚ := if startTime < 0 then 0 else startTime
    Except.ok (startTime, endTime)
  else if clipStrategy = "middle_segments" then
    let availableStart : ℚ := 5
    let availableEnd : ℚ := totalDuration - 5
    let availableDuration : ℚ := availableEnd - availableStart
    if availableDuration < (clipDuration : ℚ) then
      Except.ok (availableStart, availableEnd)
    else
      let middlePoint : ℚ := availableStart + availableDuration / 2
      let startTime : ℚ := middlePoint - (clipDuration : ℚ) / 2
      let endTime : ℚ := startTime + (clipDuration : ℚ)
      Except.ok (startTime, endTime)
  else
    Except.error (ClipError.unsupportedStrategy clipStrategy)

/-- The trailing check of `ProcessingConfig.CalculateClipTimes`
(`src/internal/domain/entities/processing_config.go` lines 139–141):
`if startTime >= endTime { return 0, 0, fmt.Errorf(...) }`. -/
def entitiesCheckWindow (startTime endTime : ℚ) : Except ClipError (ℚ × ℚ) :=
  if startTime ≥ endTime then Except.error ClipError.invalidWindow
  else Except.ok (startTime, endTime)

/-- The `middle_segments` branch of `ProcessingConfig.CalculateClipTimes`
(`processing_config.go` lines 117–128): center the window on
`totalDuration/2`, then apply the two sequential clamping assignments
(`if startTime < 0 { startTime = 0; endTime = clipDuration }` and
`if endTime > totalDuration { endTime = totalDuration; startTime =
totalDuration - clipDuration }`, the second reading the first's result).
The mutated `(startTime, endTime)` pair is threaded as `p`. -/
def entitiesMiddleWindow (clipDuration : ℤ) (totalDuration : ℚ) : ℚ × ℚ :=
  let middle : ℚ := totalDuration / 2
  let startTime : ℚ := middle - (clipDuration : ℚ) / 2
  let endTime : ℚ := middle + (clipDuration : ℚ) / 2
  let p : ℚ × ℚ :=
    if startTime < 0 then ((0 : ℚ), (clipDuration : ℚ)) else (startTime, endTime)
  if p.2 > totalDuration then (totalDuration - (clipDuration : ℚ), totalDuration) else p

/-- Embedding of `ProcessingConfig.CalculateClipTimes` from
`src/internal/domain/entities/processing_config.go` (lines 103–144).
Source case order: `start_segments`, `end_segments`, `middle_segments`,
`last_segments`; the sequential clamping assignments of the
`middle_segments` branch are translated as successive `let` rebindings of
the pair `(startTime, endTime)`. Every recognized branch runs through
`entitiesCheckWindow`. -/
def entitiesCalculateClipTimes (clipStrategy : String) (clipDuration : ℤ)
    (totalDuration : ℚ) : Except ClipError (ℚ × ℚ) :=
  if clipStrategy = "start_segments" then
    let startTime : ℚ := 5
    let endTime : ℚ := startTime + (clipDuration : ℚ)
    let endTime : ℚ := if endTime > totalDuration then totalDuration else endTime
    entitiesCheckWindow startTime endTime
  else if clipStrategy = "end_segments" then
    let endTime : ℚ := totalDuration - 5
    let startTime : ℚ := endTime - (clipDuration : ℚ)
    let startTime : ℚ := if startTime < 0 then 0 else startTime
    entitiesCheckWindow startTime endTime
  else if clipStrategy = "middle_segments" then
    entitiesCheckWindow (entitiesMiddleWindow clipDuration totalDuration).1
      (entitiesMiddleWindow clipDuration totalDuration).2
  else if clipStrategy = "last_segments" then
    let startTime : ℚ := totalDuration - (clipDuration : ℚ)
    let endTime : ℚ := totalDuration
    let startTime : ℚ := if startTime < 0 then 0 else startTime
    entitiesCheckWindow startTime endTime
  else
    Except.error (ClipError.unsupportedStrategy clipStrategy)

/-! ## Branch-unfolding lemmas for the two calculators -/

lemma mainCalc_start (T : ℚ) (d : ℤ) :
    mainCalculateClipTimes T "start_segments" d =
      Except.ok (5, if 5 + (d : ℚ) > T then T else 5 + (d : ℚ)) := by
  simp [mainCalculateClipTimes]

lemma mainCalc_end (T : ℚ) (d : ℤ) :
    mainCalculateClipTimes T "end_segments" d =
      Except.ok (if T - 5 - (d : ℚ) < 0 then 0 else T - 5 - (d : ℚ), T - 5) := by
  simp [mainCalculateClipTimes]

lemma mainCalc_last (T : ℚ) (d : ℤ) :
    mainCalculateClipTimes T "last_segments" d =
      Except.ok (if T - 5 - (d : ℚ) < 0 then 0 else T - 5 - (d : ℚ), T - 5) := by
  simp [mainCalculateClipTimes]

lemma mainCalc_middle (T : ℚ) (d : ℤ) :
    mainCalculateClipTimes T "middle_segments" d =
      if T - 5 - 5 < (d : ℚ) then Except.ok (5, T - 5)
      else Except.ok (5 + (T - 5 - 5) / 2 - (d : ℚ) / 2,
        5 + (T - 5 - 5) / 2 - (d : ℚ) / 2 + (d : ℚ)) := by
  simp [mainCalculateClipTimes]

lemma entitiesCalc_start (T : ℚ) (d : ℤ) :
    entitiesCalculateClipTimes "start_segments" d T =
      entitiesCheckWindow 5 (if 5 + (d : ℚ) > T then T else 5 + (d : ℚ)) := by
  simp [entitiesCalculateClipTimes]

lemma entitiesCalc_end (T : ℚ) (d : ℤ) :
    entitiesCalculateClipTimes "end_segments" d T =
      entitiesCheckWindow (if T - 5 - (d : ℚ) < 0 then 0 else T - 5 - (d : ℚ)) (T - 5) := by
  simp [entitiesCalculateClipTimes]

lemma entitiesCalc_middle (T : ℚ) (d : ℤ) :
    entitiesCalculateClipTimes "middle_segments" d T =
      entitiesCheckWindow (entitiesMiddleWindow d T).1 (entitiesMiddleWindow d T).2 := by
  simp [entitiesCalculateClipTimes]

lemma entitiesCalc_last (T : ℚ) (d : ℤ) :
    entitiesCalculateClipTimes "last_segments" d T =
      entitiesCheckWindow (if T - (d : ℚ) < 0 then 0 else T - (d : ℚ)) T := by
  simp [entitiesCalculateClipTimes]

lemma entitiesCheckWindow_ok (s e : ℚ) (h : s < e) :
    entitiesCheckWindow s e = Except.ok (s, e) := by
  unfold entitiesCheckWindow
  rw [if_neg (not_le.mpr h)]

lemma entitiesMiddleWindow_of_no_clamp (d : ℤ) (T : ℚ)
    (h0 : 0 ≤ T / 2 - (d : ℚ) / 2) (h1 : T / 2 + (d : ℚ) / 2 ≤ T) :
    entitiesMiddleWindow d T = (T / 2 - (d : ℚ) / 2, T / 2 + (d : ℚ) / 2) := by
  simp only [entitiesMiddleWindow]
  rw [if_neg (not_lt.mpr h0)]
  dsimp only
  rw [if_neg (not_lt.mpr h1)]

/-! ## C1: window bounds for all four strategies -/

/-- C1 counterexample: the claim quantifies over every clip duration below
`totalDuration - 10`, but at `totalDuration = 20`, `clipDuration = 0`
(which satisfies `0 < 20 - 10`) the `start_segments` strategy of
`DefaultClipCalculator.CalculateClipTimes` returns the degenerate window
`(5, 5)`, violating `start < end`. -/
theorem trim_claim_fails_at_zero_clipDuration :
    (10 : ℚ) < 20 ∧ ((0 : ℤ) : ℚ) < 20 - 10 ∧
      mainCalculateClipTimes 20 "start_segments" 0 = Except.ok (5, 5) ∧
      ¬ ((5 : ℚ) < 5) := by
  refine ⟨by norm_num, by norm_num, ?_, by norm_num⟩
  rw [mainCalc_start]
  norm_num

/-- C1 (amended with `0 < clipDuration`, which `ValidateConfig` and
`ProcessingConfig.validate` both enforce): for `totalDuration > 10` and
`0 < clipDuration < totalDuration - 10`, each of the four recognized
strategies yields a window `0 ≤ start < end ≤ totalDuration`, in both
`DefaultClipCalculator.CalculateClipTimes` (main.go) and
`ProcessingConfig.CalculateClipTimes` (entities). -/
theorem trim_window_bounds_of_pos_clipDuration (T : ℚ) (strat : String) (d : ℤ)
    (_hT : 10 < T) (hd : 0 < d) (hdT : (d : ℚ) < T - 10)
    (hs : strat = "start_segments" ∨ strat = "end_segments" ∨
      strat = "last_segments" ∨ strat = "middle_segments") :
    (∃ s e, mainCalculateClipTimes T strat d = Except.ok (s, e) ∧
      0 ≤ s ∧ s < e ∧ e ≤ T) ∧
    (∃ s e, entitiesCalculateClipTimes strat d T = Except.ok (s, e) ∧
      0 ≤ s ∧ s < e ∧ e ≤ T) := by
  have hdQ : (0 : ℚ) < (d : ℚ) := by exact_mod_cast hd
  rcases hs with h | h | h | h <;> subst h
  · constructor
    · rw [mainCalc_start, if_neg (not_lt.mpr (by linarith))]
      exact ⟨5, 5 + (d : ℚ), rfl, by norm_num, by linarith, by linarith⟩
    · rw [entitiesCalc_start, if_neg (not_lt.mpr (by linarith)),
        entitiesCheckWindow_ok _ _ (by linarith)]
      exact ⟨5, 5 + (d : ℚ), rfl, by norm_num, by linarith, by linarith⟩
  · constructor
    · rw [mainCalc_end, if_neg (not_lt.mpr (by linarith))]
      exact ⟨T - 5 - (d : ℚ), T - 5, rfl, by linarith, by linarith, by linarith⟩
    · rw [entitiesCalc_end, if_neg (not_lt.mpr (by linarith)),
        entitiesCheckWindow_ok _ _ (by linarith)]
      exact ⟨T - 5 - (d : ℚ), T - 5, rfl, by linarith, by linarith, by linarith⟩
  · constructor
    · rw [mainCalc_last, if_neg (not_lt.mpr (by linarith))]
      exact ⟨T - 5 - (d : ℚ), T - 5, rfl, by linarith, by linarith, by linarith⟩
    · rw [entitiesCalc_last, if_neg (not_lt.mpr (by linarith)),
        entitiesCheckWindow_ok _ _ (by linarith)]
      exact ⟨T - (d : ℚ), T, rfl, by linarith, by linarith, by linarith⟩
  · constructor
    · rw [mainCalc_middle, if_neg (not_lt.mpr (by linarith))]
      exact ⟨5 + (T - 5 - 5) / 2 - (d : ℚ) / 2,
        5 + (T - 5 - 5) / 2 - (d : ℚ) / 2 + (d : ℚ), rfl,
        by linarith, by linarith, by linarith⟩
    · rw [entitiesCalc_middle,
        entitiesMiddleWindow_of_no_clamp d T (by linarith) (by linarith)]
      rw [entitiesCheckWindow_ok _ _ (by linarith)]
      exact ⟨T / 2 - (d : ℚ) / 2, T / 2 + (d : ℚ) / 2, rfl,
        by linarith, by linarith, by linarith⟩

/-- C1 witness: the amended theorem applied at `totalDuration = 40`,
`clipDuration = 20`, strategy `start_segments`. -/
theorem trim_window_bounds_witness :
    (∃ s e, mainCalculateClipTimes 40 "start_segments" 20 = Except.ok (s, e) ∧
      0 ≤ s ∧ s < e ∧ e ≤ 40) ∧
    (∃ s e, entitiesCalculateClipTimes "start_segments" 20 40 = Except.ok (s, e) ∧
      0 ≤ s ∧ s < e ∧ e ≤ 40) :=
  trim_window_bounds_of_pos_clipDuration 40 "start_segments" 20
    (by norm_num) (by norm_num) (by norm_num) (Or.inl rfl)

/-! ## C2: `middle_segments` centering -/

/-- C2 counterexample: the claim covers "the middle_segments strategy" of
both calculators, but `ProcessingConfig.CalculateClipTimes` (entities)
centers on the full video rather than inside `[5, totalDuration-5]`:
at `totalDuration = 12`, `clipDuration = 20` (usable range `[5, 7]` is
narrower than the clip) it returns `(-8, 12)`, not the collapsed usable
range `(5, 7)`. -/
theorem entities_middle_not_collapsed_at_12_20 :
    entitiesCalculateClipTimes "middle_segments" 20 12 = Except.ok (-8, 12) ∧
      ((-8 : ℚ), (12 : ℚ)) ≠ ((5 : ℚ), (7 : ℚ)) := by
  constructor
  · rw [entitiesCalc_middle]
    have h : entitiesMiddleWindow 20 12 = (-8, 12) := by
      simp only [entitiesMiddleWindow]
      norm_num
    rw [h]
    rw [entitiesCheckWindow_ok _ _ (by norm_num)]
  · intro h
    have := congrArg Prod.fst h
    norm_num at this

/-- C2 (amended: restricted to `DefaultClipCalculator.CalculateClipTimes`
in main.go, whose `middle_segments` branch uses the guard-banded usable
range; the entities variant centers on the whole video with clamping):
when the usable range `[5, T-5]` is at least `clipDuration` wide the
window is centered in it (`start + end = T`, i.e. midpoint `T/2`, with
`5 ≤ start` and `end ≤ T-5`); otherwise the result is exactly
`(5, T-5)`. -/
theorem main_middle_centered_or_collapsed (T : ℚ) (d : ℤ) :
    ((d : ℚ) ≤ T - 10 →
      ∃ s e, mainCalculateClipTimes T "middle_segments" d = Except.ok (s, e) ∧
        5 ≤ s ∧ e ≤ T - 5 ∧ s + e = T) ∧
    (T - 10 < (d : ℚ) →
      mainCalculateClipTimes T "middle_segments" d = Except.ok (5, T - 5)) := by
  constructor
  · intro h
    rw [mainCalc_middle, if_neg (not_lt.mpr (by linarith))]
    exact ⟨5 + (T - 5 - 5) / 2 - (d : ℚ) / 2,
      5 + (T - 5 - 5) / 2 - (d : ℚ) / 2 + (d : ℚ), rfl,
      by linarith, by linarith, by linarith⟩
  · intro h
    rw [mainCalc_middle, if_pos (by linarith)]

/-- C2 witness: both branches of the amended theorem at the spec's own
scenarios, `(T, d) = (40, 20)` (centered) and `(12, 20)` (collapsed). -/
theorem main_middle_centered_witness :
    (∃ s e, mainCalculateClipTimes 40 "middle_segments" 20 = Except.ok (s, e) ∧
      5 ≤ s ∧ e ≤ 40 - 5 ∧ s + e = 40) ∧
    mainCalculateClipTimes 12 "middle_segments" 20 = Except.ok (5, 12 - 5) :=
  ⟨(main_middle_centered_or_collapsed 40 20).1 (by norm_num),
   (main_middle_centered_or_collapsed 12 20).2 (by norm_num)⟩

/-! ## C3: degenerate windows and the `InvalidWindow` error -/

/-- C3 counterexample: `DefaultClipCalculator.CalculateClipTimes`
(main.go) performs no degeneracy check: at `totalDuration = 4`,
`start_segments`, `clipDuration = 20` the clamped window is `(5, 4)`
with `start ≥ end`, yet it is returned as a success, not as an
`InvalidWindow` error. -/
theorem main_calculator_returns_degenerate_window :
    mainCalculateClipTimes 4 "start_segments" 20 = Except.ok (5, 4) ∧
      (4 : ℚ) ≤ 5 := by
  refine ⟨?_, by norm_num⟩
  rw [mainCalc_start]
  norm_num

/-- C3 (amended: only `ProcessingConfig.CalculateClipTimes` (entities)
guards against degenerate windows — every successful result of it
satisfies `start < end`, a degenerate clamped window yielding the
`InvalidWindow` error instead; the main.go calculator returns degenerate
windows as successes). -/
lemma entitiesCheckWindow_ok_imp (a b s e : ℚ)
    (h : entitiesCheckWindow a b = Except.ok (s, e)) : s < e := by
  unfold entitiesCheckWindow at h
  split_ifs at h with hle
  have h2 := Except.ok.inj h
  have hs : a = s := congrArg Prod.fst h2
  have he : b = e := congrArg Prod.snd h2
  subst hs
  subst he
  exact lt_of_not_le hle

theorem entities_ok_implies_start_lt_end (strat : String) (d : ℤ) (T s e : ℚ)
    (h : entitiesCalculateClipTimes strat d T = Except.ok (s, e)) : s < e := by
  unfold entitiesCalculateClipTimes at h
  split_ifs at h <;> exact entitiesCheckWindow_ok_imp _ _ _ _ h

/-- C3 witness: the amended theorem applied at the concrete success
`entitiesCalculateClipTimes "start_segments" 20 40 = ok (5, 25)`. -/
theorem entities_ok_implies_start_lt_end_witness : (5 : ℚ) < 25 :=
  entities_ok_implies_start_lt_end "start_segments" 20 40 5 25 (by
    rw [entitiesCalc_start, if_neg (by norm_num), entitiesCheckWindow_ok _ _ (by norm_num)]
    norm_num)

/-! ## C4: temp-file lifecycle of the two-stage pipeline -/

/-- Filesystem-relevant actions of one pipeline invocation. -/
inductive FsAction where
  | runStage1
  | runStage2
  | removeTemp
  | verifyOutput
  deriving DecidableEq, Repr

/-- Exit-path trace of `DefaultVideoProcessor.clipVideoSegment`
(`src/main.go` lines 514–538); `VideoRepositoryImpl.ProcessVideo`
(`video_repository_impl.go` lines 46–74) and
`FFmpegVideoConverter.ConvertVideo` have the identical shape. The two
stage outcomes are the only branching inputs; the returned pair is
(ordered list of performed actions, success flag):
* stage 1 fails → `return err` with no cleanup;
* stage 2 fails → `os.Remove(tempPath); return err`;
* both succeed → `os.Remove(tempPath)`, then the duration verification
  whose failure is only logged. -/
def clipVideoSegmentTrace (stage1Ok stage2Ok : Bool) : List FsAction × Bool :=
  if stage1Ok = false then
    ([FsAction.runStage1], false)
  else if stage2Ok = false then
    ([FsAction.runStage1, FsAction.runStage2, FsAction.removeTemp], false)
  else
    ([FsAction.runStage1, FsAction.runStage2, FsAction.removeTemp,
      FsAction.verifyOutput], true)

/-- C4 counterexample: on the stage-1-failure exit path the pipeline
returns without ever removing the stage-1 temporary file — the trace is
just the failed stage-1 invocation, with no `removeTemp`. -/
theorem stage1_failure_leaves_temp :
    (clipVideoSegmentTrace false true).1 = [FsAction.runStage1] ∧
      FsAction.removeTemp ∉ (clipVideoSegmentTrace false true).1 := by
  decide

/-- C4 (amended: the stage-1 temp file is removed on the stage-2-failure
and full-success exit paths, but on the stage-1-failure path the
pipeline returns without attempting removal). -/
theorem temp_cleanup_paths (stage2Ok : Bool) :
    FsAction.removeTemp ∈ (clipVideoSegmentTrace true stage2Ok).1 ∧
      FsAction.removeTemp ∉ (clipVideoSegmentTrace false stage2Ok).1 := by
  cases stage2Ok <;> decide

/-! ## C5/C6: quality preset resolution and encoder arguments -/

/-- Structure `VideoQualityParams` from `video_repository_impl.go`. -/
structure VideoQualityParams where
  Preset : String
  CRF : ℤ
  Profile : String
  Level : String
  BFrames : ℤ
  RefFrames : ℤ
  MEMethod : String
  Subme : ℤ
  TrellisME : ℤ
  Keyint : ℤ
  KeyintMin : ℤ
  ScThreshold : ℤ
  UsePsy : Bool
  PsyRD : String
  PsyTrellis : String
  Deblock : String
  NoMbtree : Bool
  UseCABAC : Bool
  Mixed8x8dct : Bool
  deriving DecidableEq, Repr

/-- The `QualityFast` bundle of `getVideoQualityParams`. -/
def fastQualityParams : VideoQualityParams :=
  { Preset := "fast", CRF := 23, Profile := "high", Level := "4.1",
    BFrames := 3, RefFrames := 3, MEMethod := "hex", Subme := 6,
    TrellisME := 1, Keyint := 250, KeyintMin := 25, ScThreshold := 40,
    UsePsy := true, PsyRD := "1.0:0.0", PsyTrellis := "0.0",
    Deblock := "1:0:0", NoMbtree := false, UseCABAC := true,
    Mixed8x8dct := true }

/-- The `QualityHigh` bundle of `getVideoQualityParams`. -/
def highQualityParams : VideoQualityParams :=
  { Preset := "slow", CRF := 20, Profile := "high", Level := "4.1",
    BFrames := 8, RefFrames := 5, MEMethod := "umh", Subme := 8,
    TrellisME := 2, Keyint := 250, KeyintMin := 25, ScThreshold := 40,
    UsePsy := true, PsyRD := "1.0:0.1", PsyTrellis := "0.2",
    Deblock := "1:0:0", NoMbtree := false, UseCABAC := true,
    Mixed8x8dct := true }

/-- The `QualityUltra` bundle of `getVideoQualityParams`. -/
def ultraQualityParams : VideoQualityParams :=
  { Preset := "veryslow", CRF := 18, Profile := "high", Level := "4.1",
    BFrames := 16, RefFrames := 8, MEMethod := "tesa", Subme := 10,
    TrellisME := 2, Keyint := 250, KeyintMin := 25, ScThreshold := 40,
    UsePsy := true, PsyRD := "1.0:0.15", PsyTrellis := "0.25",
    Deblock := "1:0:0", NoMbtree := false, UseCABAC := true,
    Mixed8x8dct := true }

/-- Embedding of `VideoRepositoryImpl.getVideoQualityParams`
(`video_repository_impl.go` lines 239–310). `VideoQualityPreset` is a
string type whose constants are `"fast"`, `"high"`, `"ultra"`; the
`default` branch of the source recurses as
`getVideoQualityParams(QualityHigh, bitrate)`, which evaluates to the
`QualityHigh` bundle — that one recursion step is unfolded here. The
`bitrate` argument is unused in the source as well. -/
def getVideoQualityParams (preset : String) (bitrate : ℤ) : VideoQualityParams :=
  if preset = "fast" then fastQualityParams
  else if preset = "high" then highQualityParams
  else if preset = "ultra" then ultraQualityParams
  else highQualityParams

/-- Embedding of `VideoRepositoryImpl.getOptimalQualityPreset`
(`video_repository_impl.go` lines 334–346): maps the configured
`QualityPreset` string to a `VideoQualityPreset` constant, defaulting to
`QualityHigh` for anything unrecognized. -/
def getOptimalQualityPreset (qualityPreset : String) : String :=
  if qualityPreset = "fast" then "fast"
  else if qualityPreset = "high" then "high"
  else if qualityPreset = "ultra" then "ultra"
  else "high"

/-- Preset-name resolution as performed at both encoder call sites:
`r.getVideoQualityParams(r.getOptimalQualityPreset(), bitrate)`. -/
def resolveQuality (presetName : String) (bitrate : ℤ) : VideoQualityParams :=
  getVideoQualityParams (getOptimalQualityPreset presetName) bitrate

/-- C5: quality-preset resolution is a total function — an unknown preset
name never yields an error — and every name outside the recognized set
{fast, high, ultra} resolves to exactly the same bundle as the explicit
middle tier `"high"` (the spec's "balanced" default tier). -/
theorem quality_preset_resolution_total_default_high (name : String) (bitrate : ℤ) :
    (name ≠ "fast" → name ≠ "high" → name ≠ "ultra" →
      resolveQuality name bitrate = highQualityParams) ∧
    resolveQuality "high" bitrate = highQualityParams := by
  constructor
  · intro h1 h2 h3
    unfold resolveQuality getOptimalQualityPreset
    rw [if_neg h1, if_neg h2, if_neg h3]
    simp [getVideoQualityParams]
  · simp [resolveQuality, getOptimalQualityPreset, getVideoQualityParams]

/-- C5 witness: the unrecognized name `"balanced"` (at the default
bitrate 4000) resolves to the same bundle as the explicit `"high"`
tier. -/
theorem quality_preset_default_witness :
    resolveQuality "balanced" 4000 = highQualityParams ∧
      resolveQuality "high" 4000 = highQualityParams :=
  ⟨(quality_preset_resolution_total_default_high "balanced" 4000).1
      (by decide) (by decide) (by decide),
    (quality_preset_resolution_total_default_high "balanced" 4000).2⟩

/-- Embedding of `VideoRepositoryImpl.buildVideoQualityArgs`
(`video_repository_impl.go` lines 313–332). `Go`'s
`int(float64(bitrate)*1.5)` and `int(float64(bitrate)*1.2)` (conversion
truncates toward zero) are idealized as exact rational scaling:
`Int.tdiv (3*bitrate) 2` and `Int.tdiv (6*bitrate) 5`;
`fmt.Sprintf("%dk", n)` is `toString n ++ "k"`. -/
def buildVideoQualityArgs (params : VideoQualityParams) (bitrate : ℤ)
    (useCRF : Bool) : List String :=
  let args := ["-preset", params.Preset, "-profile:v", params.Profile,
    "-level", params.Level, "-pix_fmt", "yuv420p"]
  if useCRF then
    args ++ ["-crf", toString params.CRF,
      "-maxrate", toString (Int.tdiv (3 * bitrate) 2) ++ "k",
      "-bufsize", toString (bitrate * 2) ++ "k"]
  else
    args ++ ["-b:v", toString bitrate ++ "k",
      "-maxrate", toString (Int.tdiv (6 * bitrate) 5) ++ "k",
      "-bufsize", toString (bitrate * 2) ++ "k"]

/-- Argument list built by `VideoRepositoryImpl.clipAndScale`
(the DDD pipeline's intermediate trim stage). The `%.2f`-formatted
start/duration strings and the scale/pad filter are opaque string
parameters; note the source passes `useCRF = true`. -/
def implClipAndScaleArgs (inputPath outputPath ssStr tStr videoFilter
    audioBitrate presetName : String) (bitrate : ℤ) : List String :=
  let qualityParams := getVideoQualityParams (getOptimalQualityPreset presetName) bitrate
  ["-i", inputPath, "-ss", ssStr, "-t", tStr, "-vf", videoFilter, "-c:v", "libx264"]
    ++ buildVideoQualityArgs qualityParams bitrate true
    ++ ["-c:a", "aac", "-b:a", audioBitrate, "-ar", "48000", "-y", outputPath]

/-- Argument list built by `VideoRepositoryImpl.applySpeed`
(the DDD pipeline's final speed/encode stage); the source also passes
`useCRF = true` here. -/
def implApplySpeedArgs (inputPath outputPath videoSpeedFilter
    audioSpeedFilter audioBitrate presetName : String) (bitrate : ℤ) : List String :=
  let qualityParams := getVideoQualityParams (getOptimalQualityPreset presetName) bitrate
  ["-i", inputPath, "-vf", videoSpeedFilter, "-af", audioSpeedFilter, "-c:v", "libx264"]
    ++ buildVideoQualityArgs qualityParams bitrate true
    ++ ["-c:a", "aac", "-b:a", audioBitrate, "-ar", "48000", "-y", outputPath]

/-- Argument list built by `DefaultVideoProcessor.clipAndScale`
(`src/main.go`, the legacy pipeline's intermediate stage): plain
bitrate-based VBR with `-maxrate` = `int(float64(bitrate)*1.2)`. -/
def mainClipAndScaleArgs (inputPath tempPath : String) (startTime duration : ℚ)
    (ssStr tStr videoFilter audioBitrate : String) (bitrate : ℤ) : List String :=
  ["-i", inputPath]
    ++ (if startTime > 0 then ["-ss", ssStr] else [])
    ++ (if duration > 0 then ["-t", tStr] else [])
    ++ ["-vf", videoFilter, "-c:v", "libx264", "-preset", "medium",
      "-profile:v", "high", "-level", "4.1",
      "-b:v", toString bitrate ++ "k",
      "-maxrate", toString (Int.tdiv (6 * bitrate) 5) ++ "k",
      "-bufsize", toString (bitrate * 2) ++ "k",
      "-g", "50", "-keyint_min", "25", "-sc_threshold", "40",
      "-pix_fmt", "yuv420p", "-c:a", "aac", "-b:a", audioBitrate,
      "-ar", "48000", "-y", tempPath]

/-- Argument list built by `DefaultVideoProcessor.applySpeed`
(`src/main.go` lines 614–648, the legacy pipeline's final stage): also
bitrate-based, with `-maxrate` = `int(float64(bitrate)*1.25)` =
`Int.tdiv (5*bitrate) 4`. -/
def mainApplySpeedArgs (tempPath outputPath ptsFilter atempoFilter
    audioBitrate : String) (bitrate : ℤ) : List String :=
  ["-i", tempPath, "-filter:v", ptsFilter, "-filter:a", atempoFilter,
    "-c:v", "libx264", "-preset", "slow", "-profile:v", "high",
    "-level", "4.1",
    "-b:v", toString bitrate ++ "k",
    "-maxrate", toString (Int.tdiv (5 * bitrate) 4) ++ "k",
    "-bufsize", toString (bitrate * 2) ++ "k",
    "-g", "50", "-keyint_min", "25", "-sc_threshold", "40",
    "-bf", "3", "-b_strategy", "2", "-pix_fmt", "yuv420p",
    "-c:a", "aac", "-b:a", audioBitrate, "-ar", "48000",
    "-movflags", "+faststart", "-y", outputPath]

/-- C6 counterexample, at the default bitrate 4000: the DDD pipeline's
intermediate stage uses CRF rate control with `-maxrate 6000k` (1.5×),
not bitrate-based control with 1.2× (no `-b:v`, no `4800k`); and the
legacy pipeline's final stage uses bitrate-based control with
`-maxrate 5000k` (1.25×), not CRF with 1.5× (no `-crf`, no `6000k`). -/
theorem rate_control_claim_fails_at_4000 :
    ("-crf" ∈ implClipAndScaleArgs "in" "tmp" "5.00" "20.00" "vf" "112k" "high" 4000 ∧
      "-b:v" ∉ implClipAndScaleArgs "in" "tmp" "5.00" "20.00" "vf" "112k" "high" 4000 ∧
      "6000k" ∈ implClipAndScaleArgs "in" "tmp" "5.00" "20.00" "vf" "112k" "high" 4000 ∧
      "4800k" ∉ implClipAndScaleArgs "in" "tmp" "5.00" "20.00" "vf" "112k" "high" 4000) ∧
    ("-crf" ∉ mainApplySpeedArgs "tmp" "out" "setpts=0.500*PTS" "atempo=2.0" "112k" 4000 ∧
      "-b:v" ∈ mainApplySpeedArgs "tmp" "out" "setpts=0.500*PTS" "atempo=2.0" "112k" 4000 ∧
      "5000k" ∈ mainApplySpeedArgs "tmp" "out" "setpts=0.500*PTS" "atempo=2.0" "112k" 4000 ∧
      "6000k" ∉ mainApplySpeedArgs "tmp" "out" "setpts=0.500*PTS" "atempo=2.0" "112k" 4000) := by
  decide

/-- C6 (amended): both stages of the DDD pipeline are invoked with
`useCRF = true`, so each carries the CRF rate-control block
`-crf <tier CRF>, -maxrate ⌊1.5·bitrate⌋k, -bufsize 2·bitrate·k`;
both stages of the legacy main.go pipeline use bitrate-based control
(`-b:v`), with max-rate 1.2× in the intermediate stage and 1.25× in the
final stage, and buffer size 2× everywhere. -/
theorem rate_control_args_characterization
    (iP oP ss ts vf ab name vf2 af2 ptsF atF : String) (b : ℤ) (sT du : ℚ) :
    (["-crf", toString (resolveQuality name b).CRF,
      "-maxrate", toString (Int.tdiv (3 * b) 2) ++ "k",
      "-bufsize", toString (b * 2) ++ "k"] <:+:
        implClipAndScaleArgs iP oP ss ts vf ab name b) ∧
    (["-crf", toString (resolveQuality name b).CRF,
      "-maxrate", toString (Int.tdiv (3 * b) 2) ++ "k",
      "-bufsize", toString (b * 2) ++ "k"] <:+:
        implApplySpeedArgs iP oP vf2 af2 ab name b) ∧
    (["-b:v", toString b ++ "k",
      "-maxrate", toString (Int.tdiv (6 * b) 5) ++ "k",
      "-bufsize", toString (b * 2) ++ "k"] <:+:
        mainClipAndScaleArgs iP oP sT du ss ts vf ab b) ∧
    (["-b:v", toString b ++ "k",
      "-maxrate", toString (Int.tdiv (5 * b) 4) ++ "k",
      "-bufsize", toString (b * 2) ++ "k"] <:+:
        mainApplySpeedArgs iP oP ptsF atF ab b) := by
  refine ⟨⟨["-i", iP, "-ss", ss, "-t", ts, "-vf", vf, "-c:v", "libx264",
      "-preset", (resolveQuality name b).Preset,
      "-profile:v", (resolveQuality name b).Profile,
      "-level", (resolveQuality name b).Level, "-pix_fmt", "yuv420p"],
      ["-c:a", "aac", "-b:a", ab, "-ar", "48000", "-y", oP], ?_⟩,
    ⟨["-i", iP, "-vf", vf2, "-af", af2, "-c:v", "libx264",
      "-preset", (resolveQuality name b).Preset,
      "-profile:v", (resolveQuality name b).Profile,
      "-level", (resolveQuality name b).Level, "-pix_fmt", "yuv420p"],
      ["-c:a", "aac", "-b:a", ab, "-ar", "48000", "-y", oP], ?_⟩,
    ⟨["-i", iP]
      ++ (if sT > 0 then ["-ss", ss] else [])
      ++ (if du > 0 then ["-t", ts] else [])
      ++ ["-vf", vf, "-c:v", "libx264", "-preset", "medium",
        "-profile:v", "high", "-level", "4.1"],
      ["-g", "50", "-keyint_min", "25", "-sc_threshold", "40",
        "-pix_fmt", "yuv420p", "-c:a", "aac", "-b:a", ab,
        "-ar", "48000", "-y", oP], ?_⟩,
    ⟨["-i", iP, "-filter:v", ptsF, "-filter:a", atF,
      "-c:v", "libx264", "-preset", "slow", "-profile:v", "high",
      "-level", "4.1"],
      ["-g", "50", "-keyint_min", "25", "-sc_threshold", "40",
        "-bf", "3", "-b_strategy", "2", "-pix_fmt", "yuv420p",
        "-c:a", "aac", "-b:a", ab, "-ar", "48000",
        "-movflags", "+faststart", "-y", oP], ?_⟩⟩ <;>
    simp [implClipAndScaleArgs, implApplySpeedArgs, mainClipAndScaleArgs,
      mainApplySpeedArgs, buildVideoQualityArgs, resolveQuality]

/-! ## C7: batch scheduling -/

/-- The batch-accumulation loop inside
`DefaultVideoProcessor.processVideosInBatches` (`src/main.go` lines
666–737): each discovered video path is appended to `batch`; when
`len(batch) >= BatchSize` the batch is processed and `batch` is reset;
after the walk, a non-empty leftover batch is processed last. The value
is the list of processed batches in processing order. -/
def walkBatches (batchSize : ℕ) : List α → List α → List (List α)
  | batch, [] => if batch.isEmpty then [] else [batch]
  | batch, path :: rest =>
    let batch2 := batch ++ [path]
    if batchSize ≤ batch2.length then batch2 :: walkBatches batchSize [] rest
    else walkBatches batchSize batch2 rest

/-- Embedding of `processVideosInBatches`, restricted to its batching behaviour: the
walk starts with an empty accumulator. -/
def processVideosInBatches (batchSize : ℕ) (files : List α) : List (List α) :=
  walkBatches batchSize [] files

lemma walkBatches_join (B : ℕ) :
    ∀ (l acc : List α), (walkBatches B acc l).join = acc ++ l := by
  intro l
  induction l with
  | nil =>
    intro acc
    by_cases h : acc.isEmpty
    · simp [walkBatches, h, List.isEmpty_iff.mp h]
    · simp [walkBatches, h]
  | cons x rest ih =>
    intro acc
    simp only [walkBatches]
    split_ifs with h
    · simp [ih]
    · simp [ih]

lemma walkBatches_ne_nil (B : ℕ) :
    ∀ (l acc : List α), acc ≠ [] ∨ l ≠ [] → walkBatches B acc l ≠ [] := by
  intro l
  induction l with
  | nil =>
    intro acc h
    have hacc : acc ≠ [] := h.resolve_right (fun hc => hc rfl)
    simp [walkBatches, List.isEmpty_iff, hacc]
  | cons x rest ih =>
    intro acc _
    simp only [walkBatches]
    split_ifs with h
    · simp
    · exact ih (acc ++ [x]) (Or.inl (by simp))

lemma walkBatches_length (B : ℕ) (hB : 1 ≤ B) :
    ∀ (l acc : List α), acc.length < B →
      (walkBatches B acc l).length = (acc.length + l.length + (B - 1)) / B := by
  intro l
  induction l with
  | nil =>
    intro acc hacc
    rcases acc with _ | ⟨a, as⟩
    · simp [walkBatches, Nat.div_eq_of_lt (show B - 1 < B by omega)]
    · have h1 : walkBatches B (a :: as) ([] : List α) = [a :: as] := by
        simp [walkBatches]
      rw [h1]
      have h2 : (a :: as).length + ([] : List α).length + (B - 1) =
          ((a :: as).length - 1) + B := by
        simp
        omega
      rw [h2, Nat.add_div_right _ (show 0 < B by omega)]
      have h3 : ((a :: as).length - 1) / B = 0 := by
        apply Nat.div_eq_of_lt
        simp at hacc ⊢
        omega
      rw [h3]
      simp
  | cons x rest ih =>
    intro acc hacc
    simp only [walkBatches]
    split_ifs with h
    · rw [List.length_cons, ih [] (show ([] : List α).length < B by simp; omega)]
      have heq : acc.length + (x :: rest).length + (B - 1) =
          (([] : List α).length + rest.length + (B - 1)) + B := by
        simp at h ⊢
        omega
      rw [heq, Nat.add_div_right _ (show 0 < B by omega)]
    · have hlt : (acc ++ [x]).length < B := by simp at h ⊢; omega
      rw [ih (acc ++ [x]) hlt]
      have heq : (acc ++ [x]).length + rest.length + (B - 1) =
          acc.length + (x :: rest).length + (B - 1) := by
        simp
        omega
      rw [heq]

lemma walkBatches_dropLast (B : ℕ) :
    ∀ (l acc : List α), acc.length < B →
      ∀ b ∈ (walkBatches B acc l).dropLast, b.length = B := by
  intro l
  induction l with
  | nil =>
    intro acc _ b hb
    by_cases h : acc.isEmpty <;> simp [walkBatches, h] at hb
  | cons x rest ih =>
    intro acc hacc b hb
    simp only [walkBatches] at hb
    split_ifs at hb with h
    · rcases hrest : walkBatches B ([] : List α) rest with _ | ⟨y, ys⟩
      · rw [hrest] at hb
        simp at hb
      · rw [hrest, List.dropLast_cons₂] at hb
        rcases List.mem_cons.mp hb with hb | hb
        · subst hb
          simp at h ⊢
          omega
        · rw [← hrest] at hb
          exact ih [] (by simp; omega) b hb
    · exact ih (acc ++ [x]) (by simp at h ⊢; omega) b hb

lemma walkBatches_getLast (B : ℕ) :
    ∀ (l acc : List α), acc.length < B → (acc.length + l.length) % B ≠ 0 →
      ∀ b, (walkBatches B acc l).getLast? = some b →
        b.length = (acc.length + l.length) % B := by
  intro l
  induction l with
  | nil =>
    intro acc hacc hmod b hb
    rcases acc with _ | ⟨a, as⟩
    · simp at hmod
    · have h1 : walkBatches B (a :: as) ([] : List α) = [a :: as] := by
        simp [walkBatches]
      rw [h1] at hb
      simp only [List.getLast?_singleton, Option.some.injEq] at hb
      subst hb
      have h2 : (a :: as).length + ([] : List α).length = (a :: as).length := by simp
      rw [h2, Nat.mod_eq_of_lt hacc]
  | cons x rest ih =>
    intro acc hacc hmod b hb
    simp only [walkBatches] at hb
    split_ifs at hb with h
    · have hn : acc.length + (x :: rest).length = rest.length + B := by
        simp at h ⊢
        omega
      rw [hn, Nat.add_mod_right] at hmod ⊢
      rcases hrest : walkBatches B ([] : List α) rest with _ | ⟨y, ys⟩
      · have hrnil : rest = [] := by
          by_contra hc
          exact walkBatches_ne_nil B rest [] (Or.inr hc) hrest
        subst hrnil
        simp at hmod
      · rw [hrest, List.getLast?_cons_cons, ← hrest] at hb
        have hres := ih [] (by simp; omega) (by simpa using hmod) b hb
        simpa using hres
    · have hlt : (acc ++ [x]).length < B := by simp at h ⊢; omega
      have hn : (acc ++ [x]).length + rest.length = acc.length + (x :: rest).length := by
        simp
        omega
      rw [← hn] at hmod ⊢
      exact ih (acc ++ [x]) hlt hmod b hb

/-- C7: for batch size `B ≥ 1`, `processVideosInBatches` processes the
discovered videos as ⌈N/B⌉ sequential batches in discovery order: their
concatenation is the original sequence, there are `(N + (B-1)) / B` of
them, every batch except possibly the last has exactly `B` videos, and
when `N mod B ≠ 0` the last batch has `N mod B` videos. -/
theorem batches_partition (B : ℕ) (hB : 1 ≤ B) (files : List α) :
    (processVideosInBatches B files).join = files ∧
    (processVideosInBatches B files).length = (files.length + (B - 1)) / B ∧
    (∀ b ∈ (processVideosInBatches B files).dropLast, b.length = B) ∧
    (files.length % B ≠ 0 → ∀ b,
      (processVideosInBatches B files).getLast? = some b →
        b.length = files.length % B) := by
  have hnil : ([] : List α).length < B := by simp; omega
  refine ⟨?_, ?_, ?_, ?_⟩
  · simpa using walkBatches_join B files []
  · simpa using walkBatches_length B hB files [] hnil
  · simpa using walkBatches_dropLast B files [] hnil
  · intro hmod b hb
    simpa using walkBatches_getLast B files [] hnil (by simpa using hmod) b hb

/-- C7 witness: the spec's scenario of 7 videos at batch size 3 — three
batches of sizes 3, 3, 1 — together with the partition theorem applied at
that input. -/
theorem batches_partition_witness :
    processVideosInBatches 3 ["v1", "v2", "v3", "v4", "v5", "v6", "v7"] =
      [["v1", "v2", "v3"], ["v4", "v5", "v6"], ["v7"]] ∧
    ((processVideosInBatches 3 ["v1", "v2", "v3", "v4", "v5", "v6", "v7"]).join =
        ["v1", "v2", "v3", "v4", "v5", "v6", "v7"] ∧
      (processVideosInBatches 3 ["v1", "v2", "v3", "v4", "v5", "v6", "v7"]).length =
        (["v1", "v2", "v3", "v4", "v5", "v6", "v7"].length + (3 - 1)) / 3 ∧
      (∀ b ∈ (processVideosInBatches 3
          ["v1", "v2", "v3", "v4", "v5", "v6", "v7"]).dropLast, b.length = 3) ∧
      (["v1", "v2", "v3", "v4", "v5", "v6", "v7"].length % 3 ≠ 0 → ∀ b,
        (processVideosInBatches 3
          ["v1", "v2", "v3", "v4", "v5", "v6", "v7"]).getLast? = some b →
          b.length = ["v1", "v2", "v3", "v4", "v5", "v6", "v7"].length % 3)) :=
  ⟨by decide, batches_partition 3 (by norm_num) _⟩

/-! ## C8: concurrency ceilings of the task groups (`src/errgroup.go`) -/

/-- Phase of one submitted unit of work: goroutine spawned but the work
function not yet entered / work function executing / finished (or
returned early on the cancellation branch). -/
inductive UnitPhase where
  | pending
  | running
  | done
  deriving DecidableEq, Repr

/-- Interleaving step of a `Group` created by `WithLimit(ctx, limit)`
(`errgroup.go` lines 25–30 and `Group.Go` lines 33–49): `WithLimit`
discards its `limit` argument — the constructed `Group` has no
semaphore — and `Go` spawns a goroutine that calls `f()` immediately, so
any pending unit may enter its work function at any time, with no guard
on the number already running. -/
inductive withLimitStep (limit : ℕ) : List UnitPhase → List UnitPhase → Prop
  | start (s₁ s₂ : List UnitPhase) :
    withLimitStep limit (s₁ ++ UnitPhase.pending :: s₂) (s₁ ++ UnitPhase.running :: s₂)
  | finish (s₁ s₂ : List UnitPhase) :
    withLimitStep limit (s₁ ++ UnitPhase.running :: s₂) (s₁ ++ UnitPhase.done :: s₂)

/-- Reachability from the all-pending initial state (`n` units submitted
via `Go` against a group built by `WithLimit(ctx, limit)`). -/
def withLimitReachable (limit n : ℕ) (s : List UnitPhase) : Prop :=
  Relation.ReflTransGen (withLimitStep limit) (List.replicate n UnitPhase.pending) s

/-- Interleaving step of a `LimitedGroup` (`NewLimitedGroup` /
`LimitedGroup.Go`, `errgroup.go` lines 60–87): the wrapped closure
selects between sending into the buffered semaphore channel `sem` of
capacity `limit` — which succeeds only while fewer than `limit` tokens
are held, i.e. fewer than `limit` units are inside `f` — and the
`ctx.Done()` branch, which returns without running `f`; the token is
released when `f` returns. -/
inductive limitedStep (limit : ℕ) : List UnitPhase → List UnitPhase → Prop
  | start (s₁ s₂ : List UnitPhase)
    (h : (s₁ ++ UnitPhase.pending :: s₂).count UnitPhase.running < limit) :
    limitedStep limit (s₁ ++ UnitPhase.pending :: s₂) (s₁ ++ UnitPhase.running :: s₂)
  | cancel (s₁ s₂ : List UnitPhase) :
    limitedStep limit (s₁ ++ UnitPhase.pending :: s₂) (s₁ ++ UnitPhase.done :: s₂)
  | finish (s₁ s₂ : List UnitPhase) :
    limitedStep limit (s₁ ++ UnitPhase.running :: s₂) (s₁ ++ UnitPhase.done :: s₂)

/-- Reachability for `LimitedGroup` with ceiling `limit` and `n`
submitted units. -/
def limitedReachable (limit n : ℕ) (s : List UnitPhase) : Prop :=
  Relation.ReflTransGen (limitedStep limit) (List.replicate n UnitPhase.pending) s

/-- The `LimitedGroup` used by both fan-out sites in `main.go` does
enforce its ceiling: in every reachable state at most `limit` units are
executing their work function. (Supporting result; the claim's cited
`WithLimit` constructor does not share this property.) -/
theorem limitedGroup_running_le_limit (limit n : ℕ) (s : List UnitPhase)
    (h : limitedReachable limit n s) : s.count UnitPhase.running ≤ limit := by
  induction h with
  | refl => simp [List.count_replicate]
  | tail _ hstep ih =>
    cases hstep with
    | start s₁ s₂ hcnt =>
      simp [List.count_append, List.count_cons] at hcnt ⊢
      omega
    | cancel s₁ s₂ =>
      simp [List.count_append, List.count_cons] at ih ⊢
      omega
    | finish s₁ s₂ =>
      simp [List.count_append, List.count_cons] at ih ⊢
      omega

/-- Witness that `limitedGroup_running_le_limit` is applicable: the
state with one running and one pending unit is reachable under ceiling
1, and its running count is within the ceiling. -/
theorem limitedGroup_running_le_limit_witness :
    ([UnitPhase.running, UnitPhase.pending].count UnitPhase.running ≤ 1) :=
  limitedGroup_running_le_limit 1 2 [UnitPhase.running, UnitPhase.pending]
    (Relation.ReflTransGen.single
      (show limitedStep 1 ([] ++ UnitPhase.pending :: [UnitPhase.pending])
          ([] ++ UnitPhase.running :: [UnitPhase.pending]) from
        limitedStep.start [] [UnitPhase.pending] (by decide)))

/-- C8: evaluation of the buggy `WithLimit` at the failing input — a
group constructed with ceiling `limit = 1` and two submitted units can
reach a state in which both units are executing their work functions
simultaneously, because `WithLimit` ignores `limit` (contradicting its
own doc comment `创建限制并发数的错误组`). -/
theorem withLimit_group_exceeds_limit :
    withLimitReachable 1 2 [UnitPhase.running, UnitPhase.running] ∧
      [UnitPhase.running, UnitPhase.running].count UnitPhase.running = 2 := by
  constructor
  · have h1 : withLimitStep 1 [UnitPhase.pending, UnitPhase.pending]
        [UnitPhase.running, UnitPhase.pending] :=
      withLimitStep.start [] [UnitPhase.pending]
    have h2 : withLimitStep 1 [UnitPhase.running, UnitPhase.pending]
        [UnitPhase.running, UnitPhase.running] :=
      withLimitStep.start [UnitPhase.running] []
    exact Relation.ReflTransGen.head h1 (Relation.ReflTransGen.single h2)
  · decide

/-! ## C9: per-video success reporting and batch counting -/

/-- Return value of the per-config goroutine body in
`processVideoWithConcurrency` (`src/main.go` lines 406–464): the closure
runs validation / `processVideoWithConfig` (its outcome is the
parameter), records the outcome into `results` under the mutex, prints
on failure — and then executes `return nil // 不中断其他配置的处理`,
ignoring the outcome. -/
def configGoroutineReturn (outcome : Option ε) : Option ε :=
  none

/-- Embedding of `Group.Wait` (`errgroup.go` lines 50–57): returns the error captured
by `errOnce` — the first non-nil value returned by any goroutine
(chronology idealized as list order). -/
def groupWait (rets : List (Option ε)) : Option ε :=
  rets.findSome? id

/-- Embedding of `DefaultVideoProcessor.processVideoWithConcurrency`: the per-config
outcomes are recorded into `results`; each goroutine returns nil; if
`g.Wait()` reports an error it is propagated, otherwise `hasErrors` only
selects which message is printed and nil is returned. The value is
(recorded results, function return value). -/
def processVideoWithConcurrency (outcomes : List (Option ε)) :
    List (Option ε) × Option ε :=
  let results := outcomes
  match groupWait (outcomes.map configGoroutineReturn) with
  | some e => (results, some e)
  | none => (results, none)

/-- Embedding of `DefaultVideoProcessor.processBatch` (`src/main.go` lines 740–784):
runs `ProcessVideo` per file (each goroutine again returning nil so that
`g.Wait()` cannot fail), then folds the recorded results into
`(successCount, errorCount)` — success iff the recorded error is nil. -/
def processBatch (processVideo : α → Option ε) (videoFiles : List α) : ℕ × ℕ :=
  let results := videoFiles.map processVideo
  (results.countP (fun r => r.isNone), results.countP (fun r => r.isSome))

lemma groupWait_map_configGoroutineReturn (l : List (Option ε)) :
    groupWait (l.map configGoroutineReturn) = none := by
  induction l with
  | nil => rfl
  | cons x xs ih =>
    simpa [groupWait, configGoroutineReturn, List.findSome?] using ih

lemma processVideoWithConcurrency_eq (outcomes : List (Option ε)) :
    processVideoWithConcurrency outcomes = (outcomes, none) := by
  unfold processVideoWithConcurrency
  rw [groupWait_map_configGoroutineReturn]

lemma processBatch_of_forall_none (f : α → Option ε) (videos : List α)
    (hf : ∀ v, f v = none) : processBatch f videos = (videos.length, 0) := by
  unfold processBatch
  induction videos with
  | nil => rfl
  | cons v vs ih =>
    have ih1 := congrArg Prod.fst ih
    have ih2 := congrArg Prod.snd ih
    simp only at ih1 ih2
    simp [List.countP_cons, hf v, ih1, ih2]

/-- C9: `ProcessVideo` (via `processVideoWithConcurrency`) returns nil
regardless of the per-variant outcomes — variant failures are only
recorded and printed — so `processBatch` counts every video as a
success: `(successCount, errorCount) = (N, 0)`, and the two counters sum
to the batch size. -/
theorem processVideo_always_success_and_counts {ε : Type}
    (outcomes : List (Option ε)) (videos : List α)
    (perVideoOutcomes : α → List (Option ε)) :
    (processVideoWithConcurrency outcomes).2 = none ∧
    processBatch (fun v => (processVideoWithConcurrency (perVideoOutcomes v)).2)
      videos = (videos.length, 0) ∧
    (processBatch (fun v => (processVideoWithConcurrency (perVideoOutcomes v)).2)
        videos).1 +
      (processBatch (fun v => (processVideoWithConcurrency (perVideoOutcomes v)).2)
        videos).2 = videos.length := by
  have hnone : ∀ v, (processVideoWithConcurrency (perVideoOutcomes v)).2 = none := by
    intro v
    rw [processVideoWithConcurrency_eq]
  have hbatch := processBatch_of_forall_none
    (fun v => (processVideoWithConcurrency (perVideoOutcomes v)).2) videos hnone
  refine ⟨by rw [processVideoWithConcurrency_eq], hbatch, ?_⟩
  rw [hbatch]
  simp

/-! ## C10: the stage-1 temporary path -/

/-- Embedding of `filepath.Ext` (Go standard library, as used by both
`generateTempPath` implementations): scan the path from its end,
stopping at a path separator; return the suffix from the last `'.'` of
the final element, or the empty string. The index loop is modelled as
recursion over the reversed character list, `acc` being the
already-scanned tail (in original order). -/
def goExtAux : List Char → List Char → List Char
  | [], _ => []
  | c :: rest, acc =>
    if c = '/' then []
    else if c = '.' then c :: acc
    else goExtAux rest (c :: acc)

/-- Application `filepath.Ext path`. -/
def goExt (path : List Char) : List Char :=
  goExtAux path.reverse []

/-- Embedding of `strings.HasSuffix`. -/
def goHasSuffix (s suffix : List Char) : Bool :=
  decide (suffix.length ≤ s.length) && (s.drop (s.length - suffix.length) == suffix)

/-- Embedding of `strings.TrimSuffix`. -/
def goTrimSuffix (s suffix : List Char) : List Char :=
  if goHasSuffix s suffix then s.take (s.length - suffix.length) else s

/-- Embedding of `DefaultVideoProcessor.generateTempPath` (`src/main.go` lines
540–542):
`strings.TrimSuffix(outputPath, filepath.Ext(outputPath)) + "_temp" +
filepath.Ext(outputPath)`. (`VideoRepositoryImpl.generateTempPath`
assembles the same name from `Dir`/`Base`/`Join`, differing only by path
cleaning.) -/
def mainGenerateTempPath (outputPath : List Char) : List Char :=
  goTrimSuffix outputPath (goExt outputPath) ++ "_temp".toList ++ goExt outputPath

/-- The directory part of a path: everything up to and including the
last path separator (empty for separator-free paths). -/
def dirNamePart (s : List Char) : List Char :=
  (s.reverse.dropWhile (fun c => c != '/')).reverse

lemma goExtAux_suffix : ∀ (r acc : List Char), goExtAux r acc <:+ r.reverse ++ acc := by
  intro r
  induction r with
  | nil =>
    intro acc
    simp only [goExtAux]
    exact List.nil_suffix
  | cons x rest ih =>
    intro acc
    simp only [goExtAux]
    split_ifs with h1 h2
    · exact List.nil_suffix
    · refine ⟨rest.reverse, ?_⟩
      simp
    · have h := ih (x :: acc)
      simpa [List.reverse_cons, List.append_assoc] using h

lemma goExt_suffix (path : List Char) : goExt path <:+ path := by
  have h := goExtAux_suffix path.reverse []
  simpa [goExt] using h

lemma goExtAux_no_slash : ∀ (r acc : List Char), (∀ c ∈ acc, ¬ c = '/') →
    ∀ c ∈ goExtAux r acc, ¬ c = '/' := by
  intro r
  induction r with
  | nil =>
    intro acc _ c hc
    simp [goExtAux] at hc
  | cons x rest ih =>
    intro acc hacc c hc
    simp only [goExtAux] at hc
    split_ifs at hc with h1 h2
    · simp at hc
    · rcases List.mem_cons.mp hc with rfl | hc
      · subst h2
        decide
      · exact hacc c hc
    · refine ih (x :: acc) ?_ c hc
      intro c' hc'
      rcases List.mem_cons.mp hc' with rfl | hc'
      · exact h1
      · exact hacc c' hc'

lemma goExt_no_slash (path : List Char) : ∀ c ∈ goExt path, ¬ c = '/' :=
  goExtAux_no_slash path.reverse [] (by simp)

lemma goTrimSuffix_append (t suffix : List Char) :
    goTrimSuffix (t ++ suffix) suffix = t := by
  unfold goTrimSuffix goHasSuffix
  have hlen : (t ++ suffix).length - suffix.length = t.length := by
    simp
  rw [if_pos]
  · rw [hlen, List.take_left]
  · rw [hlen, List.drop_left]
    simp

lemma dirNamePart_append_no_slash (s t : List Char) (ht : ∀ c ∈ t, ¬ c = '/') :
    dirNamePart (s ++ t) = dirNamePart s := by
  unfold dirNamePart
  rw [List.reverse_append, List.dropWhile_append]
  have h1 : t.reverse.dropWhile (fun c => c != '/') = [] := by
    rw [List.dropWhile_eq_nil_iff]
    intro c hc
    simp only [List.mem_reverse] at hc
    simpa using ht c hc
  rw [h1]
  simp

/-- C10: `generateTempPath` splits the output path as `stem ++ ext`
(with `ext = filepath.Ext outputPath`, the stem ending in the base name)
and inserts the literal `"_temp"` between them; the directory part of
the result equals that of the output path, and the result never equals
the output path. -/
theorem generateTempPath_spec (out : List Char) :
    ∃ stem, out = stem ++ goExt out ∧
      mainGenerateTempPath out = stem ++ "_temp".toList ++ goExt out ∧
      dirNamePart (mainGenerateTempPath out) = dirNamePart out ∧
      mainGenerateTempPath out ≠ out := by
  obtain ⟨stem, hstem⟩ := goExt_suffix out
  have htl : ∀ c ∈ "_temp".toList, ¬ c = '/' := by decide
  have htemp : mainGenerateTempPath out = stem ++ "_temp".toList ++ goExt out := by
    obtain ⟨e, he⟩ : ∃ e, goExt out = e := ⟨_, rfl⟩
    rw [he] at hstem
    unfold mainGenerateTempPath
    rw [he, ← hstem, goTrimSuffix_append]
  refine ⟨stem, hstem.symm, htemp, ?_, ?_⟩
  · have hnoslash : ∀ c ∈ "_temp".toList ++ goExt out, ¬ c = '/' := by
      intro c hc
      rcases List.mem_append.mp hc with hc | hc
      · exact htl c hc
      · exact goExt_no_slash out c hc
    have h1 : dirNamePart (stem ++ ("_temp".toList ++ goExt out)) = dirNamePart stem :=
      dirNamePart_append_no_slash stem _ hnoslash
    have h2 : dirNamePart (stem ++ goExt out) = dirNamePart stem :=
      dirNamePart_append_no_slash stem _ (goExt_no_slash out)
    rw [htemp]
    conv_rhs => rw [← hstem]
    rw [List.append_assoc, h1, h2]
  · intro hEq
    have hlen := congrArg List.length hEq
    rw [htemp] at hlen
    have houtlen := congrArg List.length hstem
    have h5 : ("_temp".toList).length = 5 := by decide
    simp only [List.length_append, h5] at hlen houtlen
    omega

end AVC
